import Mathlib

/-!
Verification development for the AIStorckTrade trading system.

The definitions below are a shallow embedding of the Python sources:
* `trading_engine.py` (`TradingEngine._execute_buy`, `_execute_close`,
  `_execute_decisions`),
* `market_data.py` (`MarketDataFetcher.get_prices`, `get_current_prices`,
  `calculate_technical_indicators`),
* `ai_trader.py` (`AITrader._parse_response`, `_stringify_cot_trace`).

Modelling conventions:
* Python float arithmetic is modelled exactly over `ℚ`; `int(x)` (truncation
  towards zero) is `pyint`.
* A raised Python exception is `Except.error msg`; the per-symbol
  `try/except` boundary of `_execute_decisions` converts it into an error
  result dict, modelled by `boundary`.
* Ledger (`db`) mutation calls are modelled by the `DbOp` datatype together
  with a behaviour function `db : DbOp → Option String` (`none` = the call
  succeeds, `some e` = the call raises an exception with message `e`).  The
  list of `DbOp`s issued by an execution is returned alongside its result.
* Python dicts appearing as result payloads are modelled as structures with
  `Option` fields (`none` = key absent).
* Presentation-only `message` strings that the source builds with `:.2f`
  number formatting are recorded without the 2-decimal rendering of the
  numbers (no claim depends on them).
-/

/-- Python `int(q)` on a real number: truncation towards zero. -/
def pyint (q : ℚ) : Int := if q < 0 then ⌈q⌉ else ⌊q⌋

/-- One entry of `portfolio['positions']` (ledger-owned position dict). -/
structure Position where
  coin : String
  quantity : ℚ
  avg_price : ℚ
  leverage : ℚ
  side : String
deriving DecidableEq, Repr

/-- The portfolio dict handed to the executor by the ledger. -/
structure Portfolio where
  cash : ℚ
  positions : List Position
deriving DecidableEq, Repr

/-- A well-typed trade decision: the value of the Python-level coercions
(`decision.get('quantity', 0)` followed by `int(...)`,
`int(decision.get('leverage', 1))`) when they succeed.  `signal = none`
models a missing `signal` key, `risk_budget_pct = none` a missing
`risk_budget_pct` key.  The untrusted decision values as actually parsed
from the oracle reply are JSON values; see `execute_decisions_raw` below
for the pass over those, with the coercion raise paths. -/
structure Decision where
  signal : Option String := none
  quantity : Int := 0
  leverage : Int := 1
  risk_budget_pct : Option ℚ := none
deriving DecidableEq, Repr

/-- A ledger mutation requested through the `db` interface. -/
inductive DbOp where
  | update_position (model_id : Int) (coin : String) (quantity : Int)
      (price : ℚ) (leverage : Int) (side : String)
  | close_position (model_id : Int) (coin : String) (side : String)
  | add_trade (model_id : Int) (coin : String) (signal : String)
      (quantity : ℚ) (price : ℚ) (leverage : ℚ) (side : String)
      (pnl : ℚ) (fee : ℚ)
deriving DecidableEq, Repr

/-- A per-symbol execution result dict (`Option` = key absent). -/
structure ExecResult where
  coin : String
  signal : Option String := none
  quantity : Option ℚ := none
  price : Option ℚ := none
  leverage : Option Int := none
  fee : Option ℚ := none
  pnl : Option ℚ := none
  error : Option String := none
  message : Option String := none
deriving DecidableEq, Repr

/-- `self.max_positions` (set to 3 in `TradingEngine.__init__`). -/
def max_positions : Nat := 3

/-- `risk_pct = float(decision.get('risk_budget_pct', 3)) / 100` followed by
`risk_pct = min(max(risk_pct, 0.01), 0.05)`. -/
def clamp_risk_pct (risk_budget_pct : Option ℚ) : ℚ :=
  min (max ((risk_budget_pct.getD 3) / 100) (1 / 100)) (5 / 100)

/-- `max_affordable_qty = int(portfolio['cash'] / (price * (1 + fee_rate)))`. -/
def max_affordable (cash price fee_rate : ℚ) : Int :=
  pyint (cash / (price * (1 + fee_rate)))

/-- `risk_based_qty = int((portfolio['cash'] * risk_pct) / (price * (1 + fee_rate)))`. -/
def risk_based (cash price fee_rate risk_pct : ℚ) : Int :=
  pyint ((cash * risk_pct) / (price * (1 + fee_rate)))

/-- The sizing block of `_execute_buy` (source lines 160–167): keep an
in-range requested quantity, otherwise replace it with
`min(max_affordable_qty, risk_based_qty if risk_based_qty > 0 else max_affordable_qty)`. -/
def buy_sizing (cash price fee_rate : ℚ) (risk_budget_pct : Option ℚ)
    (requested : Int) : Int :=
  let max_affordable_qty := max_affordable cash price fee_rate
  let risk_based_qty := risk_based cash price fee_rate (clamp_risk_pct risk_budget_pct)
  if requested ≤ 0 ∨ max_affordable_qty < requested then
    min max_affordable_qty (if 0 < risk_based_qty then risk_based_qty else max_affordable_qty)
  else requested

/-- `TradingEngine._execute_buy`.  `market_state symbol = none` models a
missing `market_state[symbol]` entry (Python `KeyError`).  A zero divisor
(`price * (1 + fee_rate) = 0`, or `leverage = 0`) models the Python
`ZeroDivisionError` raised by the corresponding division. -/
def execute_buy (db : DbOp → Option String) (model_id : Int) (fee_rate : ℚ)
    (symbol : String) (decision : Decision)
    (market_state : String → Option ℚ) (portfolio : Portfolio) :
    Except String ExecResult × List DbOp :=
  match market_state symbol with
  | none => (Except.error ("KeyError: " ++ symbol), [])
  | some price =>
    let leverage := decision.leverage
    let existing_symbols := (portfolio.positions.map Position.coin).dedup
    if symbol ∉ existing_symbols ∧ max_positions ≤ existing_symbols.length then
      (Except.ok { coin := symbol, error := some "达到最大持仓数量，无法继续开仓" }, [])
    else if price * (1 + fee_rate) = 0 then
      (Except.error "float division by zero", [])
    else
      let quantity := buy_sizing portfolio.cash price fee_rate
        decision.risk_budget_pct decision.quantity
      if quantity ≤ 0 then
        (Except.ok { coin := symbol, error := some "现金不足，无法买入" }, [])
      else
        let trade_amount : ℚ := (quantity : ℚ) * price
        let trade_fee := trade_amount * fee_rate
        if leverage = 0 then
          (Except.error "float division by zero", [])
        else
          let required_margin := ((quantity : ℚ) * price) / (leverage : ℚ)
          if portfolio.cash < required_margin + trade_fee then
            (Except.ok { coin := symbol, error := some "可用资金不足（含手续费）" }, [])
          else
            let op1 := DbOp.update_position model_id symbol quantity price leverage "long"
            match db op1 with
            | some e => (Except.error e, [op1])
            | none =>
              let op2 := DbOp.add_trade model_id symbol "buy_to_enter"
                (quantity : ℚ) price (leverage : ℚ) "long" 0 trade_fee
              match db op2 with
              | some e => (Except.error e, [op1, op2])
              | none =>
                (Except.ok { coin := symbol, signal := some "buy_to_enter",
                             quantity := some (quantity : ℚ), price := some price,
                             leverage := some leverage, fee := some trade_fee,
                             message := some ("买入 " ++ symbol) }, [op1, op2])

/-- `TradingEngine._execute_close`. -/
def execute_close (db : DbOp → Option String) (model_id : Int) (fee_rate : ℚ)
    (symbol : String) (_decision : Decision)
    (market_state : String → Option ℚ) (portfolio : Portfolio) :
    Except String ExecResult × List DbOp :=
  match portfolio.positions.find? (fun pos => pos.coin = symbol) with
  | none => (Except.ok { coin := symbol, error := some "Position not found" }, [])
  | some position =>
    match market_state symbol with
    | none => (Except.error ("KeyError: " ++ symbol), [])
    | some current_price =>
      let entry_price := position.avg_price
      let quantity := position.quantity
      let side := position.side
      let gross_pnl :=
        if side = "long" then (current_price - entry_price) * quantity
        else (entry_price - current_price) * quantity
      let trade_amount := quantity * current_price
      let trade_fee := trade_amount * fee_rate
      let net_pnl := gross_pnl - trade_fee
      let op1 := DbOp.close_position model_id symbol side
      match db op1 with
      | some e => (Except.error e, [op1])
      | none =>
        let op2 := DbOp.add_trade model_id symbol "close_position"
          quantity current_price position.leverage side net_pnl trade_fee
        match db op2 with
        | some e => (Except.error e, [op1, op2])
        | none =>
          (Except.ok { coin := symbol, signal := some "close_position",
                       quantity := some quantity, price := some current_price,
                       pnl := some net_pnl, fee := some trade_fee,
                       message := some ("平仓 " ++ symbol) }, [op1, op2])

/-- Python `str.lower()` on one ASCII character. -/
def pyLowerChar (c : Char) : Char :=
  if 'A' ≤ c ∧ c ≤ 'Z' then Char.ofNat (c.toNat + 32) else c

/-- Python `str.lower()` (the signals compared against are ASCII). -/
def pyLower (s : String) : String := String.mk (s.data.map pyLowerChar)

/-- The dispatch body of the per-symbol `try:` block of
`_execute_decisions` (signal lower-cased, four known signals, otherwise an
"Unknown signal" error result).  `positions_map` is the list of coins of
`portfolio['positions']` (only membership is consulted). -/
def execute_one (db : DbOp → Option String) (model_id : Int) (fee_rate : ℚ)
    (positions_map : List String) (market_state : String → Option ℚ)
    (portfolio : Portfolio) (symbol : String) (decision : Decision) :
    Except String ExecResult × List DbOp :=
  let signal := pyLower (decision.signal.getD "")
  if signal = "buy_to_enter" then
    execute_buy db model_id fee_rate symbol decision market_state portfolio
  else if signal = "sell_to_enter" then
    (Except.ok { coin := symbol, error := some "A股账户暂不支持做空" }, [])
  else if signal = "close_position" then
    if symbol ∉ positions_map then
      (Except.ok { coin := symbol, error := some "No position to close" }, [])
    else
      execute_close db model_id fee_rate symbol decision market_state portfolio
  else if signal = "hold" then
    (Except.ok { coin := symbol, signal := some "hold", message := some "保持观望" }, [])
  else
    (Except.ok { coin := symbol, error := some ("Unknown signal: " ++ signal) }, [])

/-- The `except Exception as e:` boundary of `_execute_decisions`: a raised
exception becomes `{'coin': symbol, 'error': str(e)}`. -/
def boundary (symbol : String) : Except String ExecResult → ExecResult
  | Except.ok r => r
  | Except.error e => { coin := symbol, error := some e }

/-- `TradingEngine._execute_decisions` restricted to well-typed decision
values (dicts whose signal is a string or absent and whose numeric fields
coerce): one pass over the decision map in dict order, skipping untracked
symbols, isolating each symbol's exceptions.  The issued `DbOp`s are
accumulated alongside the result list.  The full pass over raw JSON
decision values — where the signal extraction at source line 125 sits
outside the per-symbol `try:` — is `execute_decisions_raw` below. -/
def execute_decisions (db : DbOp → Option String) (model_id : Int) (fee_rate : ℚ)
    (tracked : List String) (market_state : String → Option ℚ)
    (portfolio : Portfolio) :
    List (String × Decision) → List ExecResult × List DbOp
  | [] => ([], [])
  | (symbol, decision) :: rest =>
    if symbol ∉ tracked then
      execute_decisions db model_id fee_rate tracked market_state portfolio rest
    else
      let positions_map := portfolio.positions.map Position.coin
      let step := execute_one db model_id fee_rate positions_map market_state
        portfolio symbol decision
      let next := execute_decisions db model_id fee_rate tracked market_state
        portfolio rest
      (boundary symbol step.1 :: next.1, step.2 ++ next.2)

/-! ## `market_data.py`: technical indicators -/

/-- The indicator snapshot dict returned by `calculate_technical_indicators`. -/
structure Indicators where
  sma_5 : ℚ
  sma_20 : ℚ
  rsi_14 : ℚ
  change_5d : ℚ
  change_20d : ℚ
  current_price : ℚ
deriving DecidableEq, Repr

/-- Python slice `l[-n:]`: the last `min n (length l)` elements. -/
def last_slice (n : Nat) (l : List ℚ) : List ℚ := l.drop (l.length - n)

/-- `MarketDataFetcher.calculate_technical_indicators`, as a pure function of
the extracted price list `prices = [item['price'] for item in history]`
(oldest → newest; the network fetch that produces `history` is an excluded
collaborator).  Returns `none` for the two `return {}` guards (`not history`
is subsumed by `len(prices) < 14`). -/
def calculate_technical_indicators (prices : List ℚ) : Option Indicators :=
  if prices.length < 14 then none
  else
    let sma_5 := (last_slice 5 prices).sum / 5
    let sma_20 :=
      if 20 ≤ prices.length then (last_slice 20 prices).sum / 20
      else prices.sum / (prices.length : ℚ)
    let changes := List.zipWith (fun a b => b - a) prices prices.tail
    let gains := changes.map (fun change => if 0 < change then change else 0)
    let losses := changes.map (fun change => if change < 0 then -change else 0)
    let avg_gain := (last_slice 14 gains).sum / 14
    let avg_loss := (last_slice 14 losses).sum / 14
    let rsi : ℚ :=
      if avg_loss = 0 then 100
      else 100 - (100 / (1 + avg_gain / avg_loss))
    let p_last := prices.getD (prices.length - 1) 0
    let p_back5 := prices.getD (prices.length - 5) 0
    let p_back20 := prices.getD (prices.length - 20) 0
    let pct_change_5 := if p_back5 ≠ 0 then ((p_last - p_back5) / p_back5) * 100 else 0
    let pct_change_20 :=
      if 20 ≤ prices.length ∧ p_back20 ≠ 0 then ((p_last - p_back20) / p_back20) * 100 else 0
    some { sma_5 := sma_5, sma_20 := sma_20, rsi_14 := rsi,
           change_5d := pct_change_5, change_20d := pct_change_20,
           current_price := p_last }

/-! ## `market_data.py`: tiered quote pipeline -/

/-- One configured stock (`db.get_stock_configs()` row). -/
structure Stock where
  symbol : String
  name : String
  exchange : String
deriving DecidableEq, Repr

/-- A quote payload dict as built by `get_current_prices` / `get_prices`
(`Option` fields model absent dict keys). -/
structure Payload where
  price : ℚ
  name : String
  exchange : String
  change_24h : Option ℚ := none
  source : Option String := none
  price_date : Option String := none
deriving DecidableEq, Repr

/-- A stored daily-close row, as returned by `db.get_latest_daily_prices`
(`stored.get('price', 0)` / `stored.get('price_date')`). -/
structure Stored where
  price : Option ℚ
  price_date : Option String
deriving DecidableEq, Repr

/-- The explicit process state of `MarketDataFetcher` that `get_prices`
reads and writes (`_last_market_open_state`, `_last_live_prices`,
`_last_live_date`; the date is kept in its `'%Y-%m-%d'` rendering). -/
structure FetchState where
  last_market_open_state : Bool
  last_live_prices : List (String × Payload)
  last_live_date : Option String
deriving DecidableEq, Repr

/-- Python dict upsert `d[k] = v` on an association list. -/
def dict_insert (d : List (String × Payload)) (k : String) (v : Payload) :
    List (String × Payload) :=
  if k ∈ d.map Prod.fst then
    d.map (fun kv => if kv.1 = k then (k, v) else kv)
  else d ++ [(k, v)]

/-- `MarketDataFetcher.get_current_prices`.  The Sina HTTP transport is an
excluded collaborator: `upstream = some prices` models a successful fetch
whose parsed per-symbol payloads are `prices` (possibly empty when no line
parsed), `upstream = none` models a raised fetch exception, in which case the
source returns the degraded `{'price': 0, 'name': ..., 'exchange': ...}`
dict per requested configured stock.  The 5-second in-process result cache
(`_cache`) is wall-clock-driven and is elided. -/
def get_current_prices (cfg : List Stock)
    (upstream : Option (List (String × Payload)))
    (symbols : Option (List String)) : List (String × Payload) :=
  if cfg = [] then []
  else
    let stocks :=
      match symbols with
      | some syms => if syms = [] then cfg else cfg.filter (fun s => s.symbol ∈ syms)
      | none => cfg
    if stocks = [] then []
    else
      match upstream with
      | some prices => prices
      | none => stocks.map (fun s =>
          (s.symbol, { price := 0, name := s.name, exchange := s.exchange }))

/-- `MarketDataFetcher._format_stored_prices`. -/
def format_stored_prices (cfg : List Stock)
    (stored_prices : List (String × Stored))
    (symbols : Option (List String)) : List (String × Payload) :=
  let target_symbols :=
    let fallback :=
      if cfg.map Stock.symbol ≠ [] then cfg.map Stock.symbol
      else stored_prices.map Prod.fst
    match symbols with
    | some syms => if syms ≠ [] then syms else fallback
    | none => fallback
  target_symbols.filterMap (fun symbol =>
    match stored_prices.lookup symbol with
    | none => none
    | some stored =>
      let stock := cfg.find? (fun s => s.symbol = symbol)
      some (symbol,
        { price := stored.price.getD 0,
          name := (stock.map Stock.name).getD symbol,
          exchange := (stock.map Stock.exchange).getD "",
          change_24h := some 0,
          price_date := stored.price_date,
          source := some "closing" }))

/-- `MarketDataFetcher._persist_closing_prices`: the `upsert_daily_price`
effects it issues, as `(symbol, price, price_date)` triples.  (The payloads
recorded in `_last_live_prices` always carry a price in this model, so the
`if price is None: continue` guard never fires.) -/
def persist_closing (st : FetchState) : List (String × ℚ × String) :=
  match st.last_live_date with
  | none => []
  | some d =>
    if st.last_live_prices = [] then []
    else st.last_live_prices.map (fun sp => (sp.1, (sp.2.price, d)))

/-- The open-market tagging loop of `get_prices` (lines 125–127): set
`source = 'live'` and `price_date = today` on every payload. -/
def set_live_tags (today : String) (l : List (String × Payload)) :
    List (String × Payload) :=
  l.map (fun sp => (sp.1, { sp.2 with source := some "live", price_date := some today }))

/-- `payload.get('price_date') or fallback` (empty string is falsy). -/
def or_date (price_date fallback : Option String) : Option String :=
  match price_date with
  | some d => if d = "" then fallback else some d
  | none => fallback

/-- `MarketDataFetcher.get_prices`.  Parameters: the configured stocks, the
stored daily closes the db would return, the outcome of the (at most one)
live fetch this call performs, whether the trading window is open, today's
`'%Y-%m-%d'` date, the requested symbols, and the prior process state.
Returns the quote dict, the updated state and the `upsert_daily_price`
effects issued. -/
def get_prices (cfg : List Stock) (stored_db : List (String × Stored))
    (upstream : Option (List (String × Payload)))
    (market_open : Bool) (today : String)
    (symbols : Option (List String)) (st : FetchState) :
    List (String × Payload) × FetchState × List (String × ℚ × String) :=
  let persist_effects :=
    if ¬ market_open ∧ st.last_market_open_state then persist_closing st else []
  let st := { st with last_market_open_state := market_open }
  if market_open then
    let live_prices := get_current_prices cfg upstream symbols
    if live_prices ≠ [] then
      let live' := set_live_tags today live_prices
      (live', { st with last_live_prices := live', last_live_date := some today },
        persist_effects)
    else (live_prices, st, persist_effects)
  else
    let formatted := format_stored_prices cfg stored_db symbols
    let target_symbols :=
      match symbols with
      | some syms => if syms ≠ [] then syms else cfg.map Stock.symbol
      | none => cfg.map Stock.symbol
    let missing_symbols := target_symbols.filter (fun sym => sym ∉ formatted.map Prod.fst)
    let merged :=
      if missing_symbols ≠ [] then
        let live_prices := get_current_prices cfg upstream (some missing_symbols)
        if live_prices ≠ [] then
          let live' := live_prices.map (fun sp =>
            (sp.1, { sp.2 with source := some "live_fallback", price_date := some today }))
          (live'.foldl (fun acc sp => dict_insert acc sp.1 sp.2) formatted,
           { st with
              last_live_prices :=
                live'.foldl (fun acc sp => dict_insert acc sp.1 sp.2) st.last_live_prices,
              last_live_date := some today },
           persist_effects ++ live'.map (fun sp => (sp.1, (sp.2.price, today))))
        else (formatted, st, persist_effects)
      else (formatted, st, persist_effects)
    let formatted := merged.1
    let st := merged.2.1
    let effects := merged.2.2
    if formatted = [] ∧ st.last_live_prices ≠ [] then
      let fallback := st.last_live_prices.filterMap (fun sp =>
        let keep :=
          match symbols with
          | some syms => if syms ≠ [] ∧ sp.1 ∉ syms then false else true
          | none => true
        if keep then
          some (sp.1,
            { sp.2 with
                source := some (sp.2.source.getD "previous_live"),
                price_date := or_date sp.2.price_date st.last_live_date })
        else none)
      (fallback, st, effects)
    else (formatted, st, effects)

/-! ## `ai_trader.py`: tolerant response parsing -/

/-- JSON values (`json.loads` results). -/
inductive Json where
  | null
  | bool (b : Bool)
  | num (q : ℚ)
  | str (s : String)
  | arr (elems : List Json)
  | obj (fields : List (String × Json))
deriving Repr

/-- `isinstance(j, dict)`. -/
def Json.isObj : Json → Bool
  | Json.obj _ => true
  | _ => false

/-- Python truthiness of a JSON value. -/
def Json.falsy : Json → Bool
  | Json.null => true
  | Json.bool b => !b
  | Json.num q => q = 0
  | Json.str s => s = ""
  | Json.arr l => l.isEmpty
  | Json.obj l => l.isEmpty

/-- `parsed.get(key)`: `None` both when the key is absent and when its value
is JSON `null` (Python conflates the two). -/
def pyget (fields : List (String × Json)) (key : String) : Option Json :=
  match fields.lookup key with
  | some Json.null => none
  | v => v

/-- Split a character list at the first occurrence of (non-empty) `sep`:
`some (before, after)`, or `none` when `sep` does not occur. -/
def splitFirst (sep : List Char) : List Char → Option (List Char × List Char)
  | [] => if sep.isPrefixOf ([] : List Char) then some ([], []) else none
  | c :: rest =>
    if sep.isPrefixOf (c :: rest) then some ([], (c :: rest).drop sep.length)
    else
      match splitFirst sep rest with
      | some (before, after) => some (c :: before, after)
      | none => none

/-- `s.split(sep)[0]`: the text before the first occurrence of `sep`
(all of `s` when `sep` does not occur). -/
def pyTakeUntil (sep l : List Char) : List Char :=
  match splitFirst sep l with
  | some (before, _) => before
  | none => l

/-- The characters of the fence marker. -/
def fence3 : List Char := ['`', '`', '`']

/-- The characters of the json-marked fence. -/
def fenceJson : List Char := ['`', '`', '`', 'j', 's', 'o', 'n']

/-- The fenced-block extraction of `_parse_response` (lines 251–254):
`response.split('```json')[1].split('```')[0]` when a json-marked fence is
present, else `response.split('```')[1].split('```')[0]` when a generic
fence is present, else the text unchanged.  Python `s.split(sep)[1]` is the
segment between the first and second occurrence of `sep`. -/
def extract_payload (l : List Char) : List Char :=
  match splitFirst fenceJson l with
  | some (_, after) => pyTakeUntil fence3 (pyTakeUntil fenceJson after)
  | none =>
    match splitFirst fence3 l with
    | some (_, after) => pyTakeUntil fence3 (pyTakeUntil fence3 after)
    | none => l

/-- Python `str.strip()` on a character list. -/
def pyStrip (l : List Char) : List Char :=
  ((l.dropWhile Char.isWhitespace).reverse.dropWhile Char.isWhitespace).reverse

/-- Python `str.strip()` on a string. -/
def pyStripS (s : String) : String := String.mk (pyStrip s.data)

/-- `AITrader._stringify_cot_trace`, with `json.dumps` of a non-string item
supplied as the (total, collaborator) serialization `dumps`. -/
def stringify_cot_trace (dumps : Json → String) : Option Json → Option String
  | none => none
  | some (Json.str s) => if pyStripS s = "" then none else some (pyStripS s)
  | some (Json.arr items) =>
    let cleaned := items.filterMap (fun item =>
      match item with
      | Json.str s => if pyStripS s = "" then none else some (pyStripS s)
      | j => some (dumps j))
    let joined := String.intercalate "\n" cleaned
    if joined = "" then none else some joined
  | some j => some (dumps j)

/-- `AITrader._parse_response`.  `loads` models `json.loads` on the
extracted text (`none` = `json.JSONDecodeError`); `dumps` models
`json.dumps`.  Returns the decision map (an association list, empty when the
content is unparsable or not an object) and the optional reasoning trace. -/
def parse_response (loads : List Char → Option Json) (dumps : Json → String)
    (response : List Char) : List (String × Json) × Option String :=
  let stripped := pyStrip response
  let extracted := extract_payload stripped
  let parsed_pair :=
    match loads (pyStrip extracted) with
    | some (Json.obj fields) =>
      if "decisions" ∈ fields.map Prod.fst then
        let dec :=
          match pyget fields "decisions" with
          | some j => if j.falsy then Json.obj [] else j
          | none => Json.obj []
        (dec, pyget fields "cot_trace")
      else (Json.obj fields, (none : Option Json))
    | some _ => (Json.obj [], none)
    | none => (Json.obj [], none)
  let decisions :=
    match parsed_pair.1 with
    | Json.obj fields => fields
    | _ => ([] : List (String × Json))
  (decisions, stringify_cot_trace dumps parsed_pair.2)

/-! ## `trading_engine.py` over raw (JSON-valued) decisions

`_execute_decisions` receives the decision map exactly as parsed from the
oracle reply: its values are untrusted JSON values, not typed records.  The
definitions below model that layer, including the Python coercion raise
paths; the typed `Decision`/`execute_decisions` layer above is its
restriction to decision values on which every coercion succeeds. -/

/-- The digits value of a character list (`some 0` on the empty list;
callers require non-emptiness), `none` on a non-digit. -/
def digits_val (ds : List Char) : Option Nat :=
  ds.foldl (fun acc c =>
    match acc with
    | none => none
    | some n => if c.isDigit then some (n * 10 + (c.toNat - 48)) else none) (some 0)

/-- Python `int(s)` on a string: strip whitespace, optional sign, digits;
any other spelling raises. -/
def py_int_string (s : String) : Option Int :=
  let l := pyStrip s.data
  let sign_rest : Int × List Char :=
    match l with
    | '-' :: t => (-1, t)
    | '+' :: t => (1, t)
    | t => (1, t)
  if sign_rest.2 = [] then none
  else (digits_val sign_rest.2).map (fun n => sign_rest.1 * (n : Int))

/-- Python `float(s)` on a string: strip whitespace, optional sign, digits
with an optional fractional part (`'1.'` and `'.5'` parse, as in Python;
exponent, `inf`/`nan` and underscore spellings are not modelled — no claim
depends on them). -/
def py_float_string (s : String) : Option ℚ :=
  let l := pyStrip s.data
  let sign_rest : ℚ × List Char :=
    match l with
    | '-' :: t => (-1, t)
    | '+' :: t => (1, t)
    | t => (1, t)
  match splitFirst ['.'] sign_rest.2 with
  | none =>
    if sign_rest.2 = [] then none
    else (digits_val sign_rest.2).map (fun n => sign_rest.1 * (n : ℚ))
  | some (ip, fp) =>
    if ip = [] ∧ fp = [] then none
    else
      match digits_val ip, digits_val fp with
      | some i, some f =>
        some (sign_rest.1 * ((i : ℚ) + (f : ℚ) / ((10 : ℚ) ^ fp.length)))
      | _, _ => none

/-- Python `int(x)` on a JSON value (the coercions at source lines 152 and
165): numbers truncate towards zero, booleans count as 0/1, strings must
spell an integer; `None` and containers raise. -/
def py_to_int : Json → Except String Int
  | Json.num q => Except.ok (pyint q)
  | Json.bool b => Except.ok (if b then 1 else 0)
  | Json.str s =>
    match py_int_string s with
    | some n => Except.ok n
    | none => Except.error ("invalid literal for int() with base 10: " ++ s)
  | _ => Except.error "int() argument must be a string, a bytes-like object or a real number"

/-- Python `float(x)` on a JSON value (the coercion at source line 161). -/
def py_to_float : Json → Except String ℚ
  | Json.num q => Except.ok q
  | Json.bool b => Except.ok (if b then 1 else 0)
  | Json.str s =>
    match py_float_string s with
    | some q => Except.ok q
    | none => Except.error ("could not convert string to float: " ++ s)
  | _ => Except.error "float() argument must be a string or a real number"

/-- `TradingEngine._execute_buy` over the raw decision dict, with the
Python coercions and their raise paths in source order:
`int(decision.get('leverage', 1))` (line 152), the `market_state[symbol]`
lookup (153), the position-cap guard (155–158), the `max_affordable_qty`
divisor (160), `float(decision.get('risk_budget_pct', 3))` (161) and
`int(quantity)` (165; the raw value is read without coercion at 151).
When every coercion succeeds this agrees with `execute_buy` on the coerced
`Decision` (`execute_buy_raw_coerced`). -/
def execute_buy_raw (db : DbOp → Option String) (model_id : Int) (fee_rate : ℚ)
    (symbol : String) (fields : List (String × Json))
    (market_state : String → Option ℚ) (portfolio : Portfolio) :
    Except String ExecResult × List DbOp :=
  let quantity_raw := (fields.lookup "quantity").getD (Json.num 0)
  match py_to_int ((fields.lookup "leverage").getD (Json.num 1)) with
  | Except.error e => (Except.error e, [])
  | Except.ok leverage =>
    match market_state symbol with
    | none => (Except.error ("KeyError: " ++ symbol), [])
    | some price =>
      let existing_symbols := (portfolio.positions.map Position.coin).dedup
      if symbol ∉ existing_symbols ∧ max_positions ≤ existing_symbols.length then
        (Except.ok { coin := symbol, error := some "达到最大持仓数量，无法继续开仓" }, [])
      else if price * (1 + fee_rate) = 0 then
        (Except.error "float division by zero", [])
      else
        match py_to_float ((fields.lookup "risk_budget_pct").getD (Json.num 3)) with
        | Except.error e => (Except.error e, [])
        | Except.ok risk_raw =>
          match py_to_int quantity_raw with
          | Except.error e => (Except.error e, [])
          | Except.ok requested =>
            let quantity := buy_sizing portfolio.cash price fee_rate (some risk_raw) requested
            if quantity ≤ 0 then
              (Except.ok { coin := symbol, error := some "现金不足，无法买入" }, [])
            else
              let trade_amount : ℚ := (quantity : ℚ) * price
              let trade_fee := trade_amount * fee_rate
              if leverage = 0 then
                (Except.error "float division by zero", [])
              else
                let required_margin := ((quantity : ℚ) * price) / (leverage : ℚ)
                if portfolio.cash < required_margin + trade_fee then
                  (Except.ok { coin := symbol, error := some "可用资金不足（含手续费）" }, [])
                else
                  let op1 := DbOp.update_position model_id symbol quantity price leverage "long"
                  match db op1 with
                  | some e => (Except.error e, [op1])
                  | none =>
                    let op2 := DbOp.add_trade model_id symbol "buy_to_enter"
                      (quantity : ℚ) price (leverage : ℚ) "long" 0 trade_fee
                    match db op2 with
                    | some e => (Except.error e, [op1, op2])
                    | none =>
                      (Except.ok { coin := symbol, signal := some "buy_to_enter",
                                   quantity := some (quantity : ℚ), price := some price,
                                   leverage := some leverage, fee := some trade_fee,
                                   message := some ("买入 " ++ symbol) }, [op1, op2])

/-- The pre-`try` signal extraction of `_execute_decisions` (line 125):
`signal = decision.get('signal', '').lower()`.  It raises `AttributeError`
when the decision value is not a dict (no `.get`) or when a present signal
value — including `null` — is not a string (no `.lower()`); otherwise it
returns the decision's fields and the lower-cased signal. -/
def py_signal : Json → Except String (List (String × Json) × String)
  | Json.obj fields =>
    match fields.lookup "signal" with
    | none => Except.ok (fields, pyLower "")
    | some (Json.str s) => Except.ok (fields, pyLower s)
    | some _ => Except.error "AttributeError: lower"
  | _ => Except.error "AttributeError: get"

/-- The body of the per-symbol `try:` block over a raw decision, with the
signal already extracted.  The close path never reads the decision value,
so it reuses `execute_close` with an empty decision record. -/
def execute_one_raw (db : DbOp → Option String) (model_id : Int) (fee_rate : ℚ)
    (positions_map : List String) (market_state : String → Option ℚ)
    (portfolio : Portfolio) (symbol : String) (fields : List (String × Json))
    (signal : String) : Except String ExecResult × List DbOp :=
  if signal = "buy_to_enter" then
    execute_buy_raw db model_id fee_rate symbol fields market_state portfolio
  else if signal = "sell_to_enter" then
    (Except.ok { coin := symbol, error := some "A股账户暂不支持做空" }, [])
  else if signal = "close_position" then
    if symbol ∉ positions_map then
      (Except.ok { coin := symbol, error := some "No position to close" }, [])
    else
      execute_close db model_id fee_rate symbol {} market_state portfolio
  else if signal = "hold" then
    (Except.ok { coin := symbol, signal := some "hold", message := some "保持观望" }, [])
  else
    (Except.ok { coin := symbol, error := some ("Unknown signal: " ++ signal) }, [])

/-- `TradingEngine._execute_decisions` over the raw decision map.  The
signal extraction (line 125) runs before the `try:` (line 127): its
exception escapes the loop and aborts the whole pass (`Except.error` in the
first component; the ledger ops already issued by earlier symbols are kept
in the second), while exceptions raised inside the dispatch are caught by
`boundary` into that symbol's error result and the pass continues. -/
def execute_decisions_raw (db : DbOp → Option String) (model_id : Int) (fee_rate : ℚ)
    (tracked : List String) (market_state : String → Option ℚ)
    (portfolio : Portfolio) :
    List (String × Json) → Except String (List ExecResult) × List DbOp
  | [] => (Except.ok [], [])
  | (symbol, decision) :: rest =>
    if symbol ∉ tracked then
      execute_decisions_raw db model_id fee_rate tracked market_state portfolio rest
    else
      match py_signal decision with
      | Except.error e => (Except.error e, [])
      | Except.ok fs =>
        let positions_map := portfolio.positions.map Position.coin
        let step := execute_one_raw db model_id fee_rate positions_map market_state
          portfolio symbol fs.1 fs.2
        match execute_decisions_raw db model_id fee_rate tracked market_state portfolio rest with
        | (Except.error e, ops) => (Except.error e, step.2 ++ ops)
        | (Except.ok rs, ops) => (Except.ok (boundary symbol step.1 :: rs), step.2 ++ ops)

/-! ## Concrete fixtures used by the witnesses -/

/-- A ledger on which every mutation succeeds. -/
def dbOk : DbOp → Option String := fun _ => none

/-- A ledger on which every mutation raises. -/
def dbFail : DbOp → Option String := fun _ => some "db down"

/-- A market state quoting every symbol at 1000. -/
def ms1000 : String → Option ℚ := fun _ => some 1000

/-- A market state quoting every symbol at 1050. -/
def ms1050 : String → Option ℚ := fun _ => some 1050

/-- An all-cash portfolio with 100000 in cash. -/
def pfCash : Portfolio := { cash := 100000, positions := [] }

/-- A portfolio holding a long 600519 position: 10 shares at entry 1000. -/
def pfLong : Portfolio :=
  { cash := 100000,
    positions := [{ coin := "600519", quantity := 10, avg_price := 1000,
                    leverage := 1, side := "long" }] }

/-- A portfolio already holding three distinct symbols. -/
def pfFull : Portfolio :=
  { cash := 100000,
    positions := [{ coin := "000001", quantity := 1, avg_price := 10, leverage := 1, side := "long" },
                  { coin := "300750", quantity := 1, avg_price := 10, leverage := 1, side := "long" },
                  { coin := "601318", quantity := 1, avg_price := 10, leverage := 1, side := "long" }] }

/-- A buy decision requesting 10 shares with a 3% risk budget. -/
def decBuy10 : Decision :=
  { signal := some "buy_to_enter", quantity := 10, leverage := 1, risk_budget_pct := some 3 }

/-- A close decision. -/
def decClose : Decision := { signal := some "close_position" }

/-- A raw buy decision with an invalid (non-numeric) risk budget. -/
def fieldsInvalidRisk : List (String × Json) :=
  [("signal", Json.str "buy_to_enter"), ("quantity", Json.num 0),
   ("risk_budget_pct", Json.str "abc")]

/-- A raw well-formed buy decision for 10 shares at 3% risk budget. -/
def fieldsBuy10 : List (String × Json) :=
  [("signal", Json.str "buy_to_enter"), ("quantity", Json.num 10),
   ("leverage", Json.num 1), ("risk_budget_pct", Json.num 3)]

/-- A `json.loads` model that always fails to parse. -/
def loadsNone : List Char → Option Json := fun _ => none

/-- A trivial `json.dumps` model. -/
def dumpsEmpty : Json → String := fun _ => ""

/-- A single configured stock for the quote-pipeline examples. -/
def cfgMoutai : List Stock := [{ symbol := "600519", name := "贵州茅台", exchange := "XSHG" }]

/-- A previously recorded live snapshot (as the open-market branch records
it: `source = 'live'`, dated). -/
def snapMoutai : FetchState :=
  { last_market_open_state := false,
    last_live_prices := [("600519",
      { price := 1700, name := "贵州茅台", exchange := "XSHG",
        change_24h := some 0, source := some "live", price_date := some "2026-10-09" })],
    last_live_date := some "2026-10-09" }

/-! ## Helper lemmas -/

theorem pyint_of_nonneg {q : ℚ} (h : 0 ≤ q) : pyint q = ⌊q⌋ := by
  rw [pyint, if_neg (not_lt.mpr h)]

/-- The quantity `_execute_buy` settles on never exceeds `max_affordable_qty`. -/
theorem buy_sizing_le_max (cash price fee_rate : ℚ) (rbp : Option ℚ) (req : Int) :
    buy_sizing cash price fee_rate rbp req ≤ max_affordable cash price fee_rate := by
  by_cases hc : req ≤ 0 ∨ max_affordable cash price fee_rate < req
  · simp only [buy_sizing]
    rw [if_pos hc]
    exact min_le_left _ _
  · simp only [buy_sizing]
    rw [if_neg hc]
    push_neg at hc
    exact hc.2

/-- `max_affordable_qty` shares of a positive price, fees included, cost at
most the available cash. -/
theorem max_affordable_mul_le {cash price fee_rate : ℚ}
    (hc : 0 ≤ cash) (hp : 0 < price) (hf : 0 ≤ fee_rate) :
    (max_affordable cash price fee_rate : ℚ) * (price * (1 + fee_rate)) ≤ cash := by
  have h1 : (0 : ℚ) < 1 + fee_rate := by linarith
  have hD : (0 : ℚ) < price * (1 + fee_rate) := mul_pos hp h1
  have hq : (0 : ℚ) ≤ cash / (price * (1 + fee_rate)) := div_nonneg hc hD.le
  rw [max_affordable, pyint_of_nonneg hq]
  calc (⌊cash / (price * (1 + fee_rate))⌋ : ℚ) * (price * (1 + fee_rate))
      ≤ (cash / (price * (1 + fee_rate))) * (price * (1 + fee_rate)) :=
        mul_le_mul_of_nonneg_right (Int.floor_le _) hD.le
    _ = cash := div_mul_cancel₀ _ hD.ne'

theorem ex_clamp3 : clamp_risk_pct (some 3) = 3 / 100 := by
  rw [clamp_risk_pct]
  norm_num

theorem ex_maxaff : max_affordable 100000 1000 (1 / 1000) = 99 := by
  have h : (100000 : ℚ) / (1000 * (1 + 1 / 1000)) = 100000 / 1001 := by norm_num
  rw [max_affordable, h, pyint_of_nonneg (by norm_num), Int.floor_eq_iff]
  norm_num

theorem ex_riskq : risk_based 100000 1000 (1 / 1000) (3 / 100) = 2 := by
  have h : (100000 : ℚ) * (3 / 100) / (1000 * (1 + 1 / 1000)) = 3000 / 1001 := by norm_num
  rw [risk_based, h, pyint_of_nonneg (by norm_num), Int.floor_eq_iff]
  norm_num

/-! ## C1 -/

/-- C1: for every `buy_to_enter` the executor carries to a ledger position
update, the executed integer quantity satisfies
`quantity × price × (1 + fee_rate) ≤ cash` and
`quantity × price / leverage + fee ≤ cash`, for every portfolio with
non-negative cash, positive price, any decision (any leverage) —
because the quantity is clamped to `max_affordable_qty` first. -/
theorem buy_solvency (db : DbOp → Option String) (model_id : Int) (fee_rate : ℚ)
    (symbol : String) (decision : Decision) (market_state : String → Option ℚ)
    (portfolio : Portfolio) (price : ℚ)
    (hms : market_state symbol = some price)
    (hc : 0 ≤ portfolio.cash) (hp : 0 < price) (hf : 0 ≤ fee_rate) :
    ∀ m c q p lv sd,
      DbOp.update_position m c q p lv sd ∈
        (execute_buy db model_id fee_rate symbol decision market_state portfolio).2 →
      (q : ℚ) * p * (1 + fee_rate) ≤ portfolio.cash ∧
        (q : ℚ) * p / (lv : ℚ) + (q : ℚ) * p * fee_rate ≤ portfolio.cash := by
  intro m c q p lv sd hmem
  simp only [execute_buy, hms] at hmem
  split at hmem
  · simp at hmem
  · split at hmem
    · simp at hmem
    · split at hmem
      · simp at hmem
      · split at hmem
        · simp at hmem
        · split at hmem
          · simp at hmem
          · rename_i hqty hlev hmargin
            push_neg at hmargin
            have h1 : (0 : ℚ) < 1 + fee_rate := by linarith
            have hD : (0 : ℚ) < price * (1 + fee_rate) := mul_pos hp h1
            have hle : ((buy_sizing portfolio.cash price fee_rate
                decision.risk_budget_pct decision.quantity : Int) : ℚ) ≤
                (max_affordable portfolio.cash price fee_rate : ℚ) :=
              Int.cast_le.mpr (buy_sizing_le_max _ _ _ _ _)
            have hsolv : ((buy_sizing portfolio.cash price fee_rate
                decision.risk_budget_pct decision.quantity : Int) : ℚ) *
                price * (1 + fee_rate) ≤ portfolio.cash := by
              calc ((buy_sizing portfolio.cash price fee_rate
                    decision.risk_budget_pct decision.quantity : Int) : ℚ) *
                    price * (1 + fee_rate)
                  = ((buy_sizing portfolio.cash price fee_rate
                      decision.risk_budget_pct decision.quantity : Int) : ℚ) *
                      (price * (1 + fee_rate)) := by ring
                _ ≤ (max_affordable portfolio.cash price fee_rate : ℚ) *
                      (price * (1 + fee_rate)) :=
                    mul_le_mul_of_nonneg_right hle hD.le
                _ ≤ portfolio.cash := max_affordable_mul_le hc hp hf
            split at hmem
            · simp at hmem
              obtain ⟨hm1, hm2, hq3, hp4, hl5, hs6⟩ := hmem
              subst hq3
              subst hp4
              subst hl5
              exact ⟨hsolv, hmargin⟩
            · split at hmem
              · simp at hmem
                obtain ⟨hm1, hm2, hq3, hp4, hl5, hs6⟩ := hmem
                subst hq3
                subst hp4
                subst hl5
                exact ⟨hsolv, hmargin⟩
              · simp at hmem
                obtain ⟨hm1, hm2, hq3, hp4, hl5, hs6⟩ := hmem
                subst hq3
                subst hp4
                subst hl5
                exact ⟨hsolv, hmargin⟩

theorem ex_sizing10 : buy_sizing 100000 1000 (1 / 1000) (some 3) 10 = 10 := by
  simp only [buy_sizing, ex_maxaff]
  norm_num

theorem ex_sizing0 : buy_sizing 100000 1000 (1 / 1000) (some 3) 0 = 2 := by
  simp only [buy_sizing, ex_maxaff, ex_clamp3, ex_riskq]
  norm_num

theorem ex_sizing500 : buy_sizing 100000 1000 (1 / 1000) (some 3) 500 = 2 := by
  simp only [buy_sizing, ex_maxaff, ex_clamp3, ex_riskq]
  norm_num

/-- Witness for C1 at cash 100000, price 1000, fee 0.1%, quantity 10. -/
theorem buy_solvency_witness :
    ((10 : Int) : ℚ) * 1000 * (1 + 1 / 1000) ≤ 100000 ∧
      ((10 : Int) : ℚ) * 1000 / ((1 : Int) : ℚ) +
        ((10 : Int) : ℚ) * 1000 * (1 / 1000) ≤ 100000 := by
  apply buy_solvency dbOk 1 (1 / 1000) "600519" decBuy10 ms1000 pfCash 1000 rfl
    (by norm_num [pfCash]) (by norm_num) (by norm_num) 1 "600519" 10 1000 1 "long"
  have hops : (execute_buy dbOk 1 (1 / 1000) "600519" decBuy10 ms1000 pfCash).2 =
      [DbOp.update_position 1 "600519" 10 1000 1 "long",
       DbOp.add_trade 1 "600519" "buy_to_enter" 10 1000 1 "long" 0
         (((10 : Int) : ℚ) * 1000 * (1 / 1000))] := by
    simp only [execute_buy, ms1000, decBuy10, pfCash, dbOk, ex_sizing10]
    norm_num [max_positions]
  rw [hops]
  simp

/-! ## C2 -/

/-- C2: with 3 (or more) distinct symbols already held, a `buy_to_enter`
for a symbol not among them returns the max-positions error result and
issues no ledger mutation, while a `buy_to_enter` for an already-held
symbol is never rejected with that error. -/
theorem buy_position_cap (db : DbOp → Option String) (model_id : Int) (fee_rate : ℚ)
    (market_state : String → Option ℚ) :
    (∀ symbol decision portfolio price,
       market_state symbol = some price →
       max_positions ≤ ((portfolio.positions.map Position.coin).dedup).length →
       symbol ∉ portfolio.positions.map Position.coin →
       execute_buy db model_id fee_rate symbol decision market_state portfolio =
         (Except.ok { coin := symbol, error := some "达到最大持仓数量，无法继续开仓" }, [])) ∧
    (∀ symbol decision portfolio r,
       symbol ∈ portfolio.positions.map Position.coin →
       (execute_buy db model_id fee_rate symbol decision market_state portfolio).1 =
         Except.ok r →
       r.error ≠ some "达到最大持仓数量，无法继续开仓") := by
  constructor
  · intro symbol decision portfolio price hms hlen hmem
    simp only [execute_buy, hms]
    rw [if_pos ⟨fun hin => hmem (List.mem_dedup.mp hin), hlen⟩]
  · intro symbol decision portfolio r hmem heq
    have hin : symbol ∈ (portfolio.positions.map Position.coin).dedup :=
      List.mem_dedup.mpr hmem
    simp only [execute_buy] at heq
    split at heq
    · simp at heq
    · rw [if_neg (fun hand => hand.1 hin)] at heq
      repeat' split at heq
      all_goals simp_all
      all_goals subst heq
      all_goals simp only [Option.some.injEq, ne_eq, ExecResult.mk.injEq]
      all_goals decide

/-- Witness for C2: with three symbols held, buying a fourth is rejected
with the max-positions error and no ledger op. -/
theorem buy_position_cap_witness :
    execute_buy dbOk 1 (1 / 1000) "600519" decBuy10 ms1000 pfFull =
      (Except.ok { coin := "600519", error := some "达到最大持仓数量，无法继续开仓" }, []) :=
  (buy_position_cap dbOk 1 (1 / 1000) ms1000).1 "600519" decBuy10 pfFull 1000 rfl
    (by decide) (by decide)

/-! ## C3 -/

/-- The raw buy path agrees with the typed one when every Python coercion
succeeds. -/
theorem execute_buy_raw_coerced (db : DbOp → Option String) (model_id : Int)
    (fee_rate : ℚ) (symbol : String) (fields : List (String × Json))
    (market_state : String → Option ℚ) (portfolio : Portfolio)
    (q0 lev : Int) (rv : ℚ)
    (hq : py_to_int ((fields.lookup "quantity").getD (Json.num 0)) = Except.ok q0)
    (hl : py_to_int ((fields.lookup "leverage").getD (Json.num 1)) = Except.ok lev)
    (hr : py_to_float ((fields.lookup "risk_budget_pct").getD (Json.num 3)) =
      Except.ok rv) :
    execute_buy_raw db model_id fee_rate symbol fields market_state portfolio =
      execute_buy db model_id fee_rate symbol
        { signal := none, quantity := q0, leverage := lev, risk_budget_pct := some rv }
        market_state portfolio := by
  simp only [execute_buy_raw, execute_buy, hq, hl, hr]

/-- C3 counterexample: an invalid (non-numeric) `risk_budget_pct` is not
defaulted to 3% — `float('abc')` raises inside the per-symbol try, so the
symbol gets an error result instead of a buy sized at 2 shares from the
default. -/
theorem buy_sizing_invalid_counterexample :
    execute_decisions_raw dbOk 1 (1 / 1000) ["600519"] ms1000 pfCash
        [("600519", Json.obj fieldsInvalidRisk)] =
      (Except.ok [{ coin := "600519",
                    error := some "could not convert string to float: abc" }], []) := by
  have hbuy : execute_buy_raw dbOk 1 (1 / 1000) "600519" fieldsInvalidRisk
      ms1000 pfCash =
      (Except.error "could not convert string to float: abc", []) := by
    have hlev : py_to_int (((fieldsInvalidRisk).lookup "leverage").getD (Json.num 1)) =
        Except.ok 1 := rfl
    have hrb : ((fieldsInvalidRisk).lookup "risk_budget_pct").getD (Json.num 3) =
        Json.str "abc" := rfl
    have hfl : py_to_float (Json.str "abc") =
        Except.error "could not convert string to float: abc" := rfl
    simp only [execute_buy_raw, hlev, ms1000, pfCash, hrb, hfl]
    norm_num [max_positions]
  have hsig : py_signal (Json.obj fieldsInvalidRisk) =
      Except.ok (fieldsInvalidRisk, "buy_to_enter") := rfl
  have hstep : execute_one_raw dbOk 1 (1 / 1000) (pfCash.positions.map Position.coin)
      ms1000 pfCash "600519" fieldsInvalidRisk "buy_to_enter" =
      (Except.error "could not convert string to float: abc", []) := by
    simp only [execute_one_raw, if_true]
    exact hbuy
  simp only [execute_decisions_raw, hsig]
  rw [if_neg (not_not_intro (show "600519" ∈ ["600519"] by decide))]
  simp only [hstep, boundary]
  simp

/-- C3 (amended): the sizing clamps the risk budget into [1%, 5%], the 3%
default applies when `risk_budget_pct` is absent, out-of-range numeric
values are clamped, and the replacement rule and the concrete example
(risk_based_qty 2, max_affordable_qty 99, requests 0 and 500 replaced by 2)
hold; but a present value that `float()` cannot coerce raises inside the
per-symbol try, aborting the buy with that exception (which the boundary
turns into the symbol's error result) instead of sizing at the default. -/
theorem buy_sizing_amended :
    clamp_risk_pct none = 3 / 100 ∧
    (∀ rbp, 1 / 100 ≤ clamp_risk_pct rbp ∧ clamp_risk_pct rbp ≤ 5 / 100) ∧
    (∀ cash price fee_rate rbp requested,
       requested ≤ 0 ∨ max_affordable cash price fee_rate < requested →
       buy_sizing cash price fee_rate rbp requested =
         min (max_affordable cash price fee_rate)
           (if 0 < risk_based cash price fee_rate (clamp_risk_pct rbp)
            then risk_based cash price fee_rate (clamp_risk_pct rbp)
            else max_affordable cash price fee_rate)) ∧
    risk_based 100000 1000 (1 / 1000) (clamp_risk_pct (some 3)) = 2 ∧
    max_affordable 100000 1000 (1 / 1000) = 99 ∧
    buy_sizing 100000 1000 (1 / 1000) (some 3) 0 = 2 ∧
    buy_sizing 100000 1000 (1 / 1000) (some 3) 500 = 2 ∧
    (∀ fields : List (String × Json), fields.lookup "risk_budget_pct" = none →
       py_to_float ((fields.lookup "risk_budget_pct").getD (Json.num 3)) =
         Except.ok 3) ∧
    (∀ (db : DbOp → Option String) (model_id : Int) (fee_rate : ℚ) (symbol : String)
       (fields : List (String × Json)) (market_state : String → Option ℚ)
       (portfolio : Portfolio) (price : ℚ) (lev : Int) (v : Json) (e : String),
       py_to_int ((fields.lookup "leverage").getD (Json.num 1)) = Except.ok lev →
       market_state symbol = some price →
       ¬ (symbol ∉ (portfolio.positions.map Position.coin).dedup ∧
          max_positions ≤ (portfolio.positions.map Position.coin).dedup.length) →
       price * (1 + fee_rate) ≠ 0 →
       fields.lookup "risk_budget_pct" = some v →
       py_to_float v = Except.error e →
       execute_buy_raw db model_id fee_rate symbol fields market_state portfolio =
         (Except.error e, [])) := by
  refine ⟨?_, ?_, ?_, ?_, ex_maxaff, ex_sizing0, ex_sizing500, ?_, ?_⟩
  · rw [clamp_risk_pct]
    norm_num
  · intro rbp
    exact ⟨le_min (le_max_right _ _) (by norm_num), min_le_right _ _⟩
  · intro cash price fee_rate rbp requested h
    simp only [buy_sizing]
    rw [if_pos h]
  · rw [ex_clamp3]
    exact ex_riskq
  · intro fields h
    rw [h]
    rfl
  · intro db model_id fee_rate symbol fields market_state portfolio price lev v e
      hlev hms hcap hdiv hv hfl
    simp only [execute_buy_raw, hlev, hms]
    rw [if_neg hcap, if_neg hdiv]
    rw [hv]
    simp only [Option.getD_some, hfl]

/-- Witness for the amended C3: a `null` risk budget makes the raw buy
raise out of `float()` rather than default to 3%. -/
theorem buy_sizing_amended_witness :
    execute_buy_raw dbOk 1 (1 / 1000) "600519"
        [("risk_budget_pct", Json.null)] ms1000 pfLong =
      (Except.error "float() argument must be a string or a real number", []) :=
  buy_sizing_amended.2.2.2.2.2.2.2.2 dbOk 1 (1 / 1000) "600519"
    [("risk_budget_pct", Json.null)] ms1000 pfLong 1000 1 Json.null
    "float() argument must be a string or a real number"
    rfl rfl (by decide) (by norm_num) rfl rfl

/-! ## C4 -/

/-- C4: a `close_position` decision with no open position yields the
per-symbol "No position to close" error result and no ledger mutation;
with an open long position it computes `gross = (p − avg) × q`,
`fee = q × p × fee_rate`, `net = gross − fee`, closes the position and
appends a closing trade carrying the net PnL and fee, returning a result
with quantity, price, fee and net PnL. -/
theorem close_position_spec (db : DbOp → Option String) (model_id : Int)
    (fee_rate : ℚ) (tracked : List String) (market_state : String → Option ℚ) :
    (∀ symbol decision portfolio,
       symbol ∈ tracked →
       pyLower (decision.signal.getD "") = "close_position" →
       symbol ∉ portfolio.positions.map Position.coin →
       execute_decisions db model_id fee_rate tracked market_state portfolio
           [(symbol, decision)] =
         ([{ coin := symbol, error := some "No position to close" }], [])) ∧
    (∀ symbol decision portfolio position price,
       portfolio.positions.find? (fun pos => pos.coin = symbol) = some position →
       position.side = "long" →
       market_state symbol = some price →
       db (DbOp.close_position model_id symbol "long") = none →
       db (DbOp.add_trade model_id symbol "close_position" position.quantity price
            position.leverage "long"
            ((price - position.avg_price) * position.quantity -
              position.quantity * price * fee_rate)
            (position.quantity * price * fee_rate)) = none →
       execute_close db model_id fee_rate symbol decision market_state portfolio =
         (Except.ok { coin := symbol, signal := some "close_position",
                      quantity := some position.quantity, price := some price,
                      pnl := some ((price - position.avg_price) * position.quantity -
                        position.quantity * price * fee_rate),
                      fee := some (position.quantity * price * fee_rate),
                      message := some ("平仓 " ++ symbol) },
          [DbOp.close_position model_id symbol "long",
           DbOp.add_trade model_id symbol "close_position" position.quantity price
             position.leverage "long"
             ((price - position.avg_price) * position.quantity -
               position.quantity * price * fee_rate)
             (position.quantity * price * fee_rate)])) := by
  constructor
  · intro symbol decision portfolio hmem hsig hpos
    simp only [execute_decisions]
    rw [if_neg (not_not_intro hmem)]
    simp only [execute_one, hsig]
    rw [if_neg (by decide), if_neg (by decide)]
    simp [hpos, boundary]
  · intro symbol decision portfolio position price hfind hside hms hdb1 hdb2
    simp [execute_close, hfind, hms, hside, hdb1, hdb2]

/-- Witness for C4: entry 1000, quantity 10, current price 1050, fee 0.1%
give net PnL 489.5 (= 979/2) and fee 10.5 (= 21/2). -/
theorem close_position_spec_witness :
    execute_close dbOk 1 (1 / 1000) "600519" decClose ms1050 pfLong =
      (Except.ok { coin := "600519", signal := some "close_position",
                   quantity := some 10, price := some 1050,
                   pnl := some (979 / 2), fee := some (21 / 2),
                   message := some ("平仓 " ++ "600519") },
       [DbOp.close_position 1 "600519" "long",
        DbOp.add_trade 1 "600519" "close_position" 10 1050 1 "long" (979 / 2) (21 / 2)]) := by
  have h := (close_position_spec dbOk 1 (1 / 1000) [] ms1050).2 "600519" decClose pfLong
    { coin := "600519", quantity := 10, avg_price := 1000, leverage := 1, side := "long" }
    1050 rfl rfl rfl rfl rfl
  rw [h]
  norm_num

/-! ## C9 -/

/-- C9 counterexample: a decision map whose value is not a dict makes the
pass itself raise — the signal extraction `decision.get('signal', '')`
runs before the per-symbol `try:`, so no result list is returned and the
exception reaches the cycle level. -/
theorem execute_isolation_counterexample :
    execute_decisions_raw dbOk 1 (1 / 1000) ["600519"] ms1000 pfCash
        [("600519", Json.str "hold")] =
      (Except.error "AttributeError: get", []) := by
  rfl

/-- Unfolding of the raw pass on a tracked decision whose signal
extraction succeeds. -/
theorem execute_decisions_raw_cons_ok (db : DbOp → Option String) (model_id : Int)
    (fee_rate : ℚ) (tracked : List String) (market_state : String → Option ℚ)
    (portfolio : Portfolio) (symbol : String) (decision : Json)
    (fs : List (String × Json) × String) (rest : List (String × Json))
    (hmem : symbol ∈ tracked) (hsig : py_signal decision = Except.ok fs) :
    execute_decisions_raw db model_id fee_rate tracked market_state portfolio
        ((symbol, decision) :: rest) =
      (match execute_decisions_raw db model_id fee_rate tracked market_state
          portfolio rest with
       | (Except.error e, ops) =>
         (Except.error e,
          (execute_one_raw db model_id fee_rate (portfolio.positions.map Position.coin)
              market_state portfolio symbol fs.1 fs.2).2 ++ ops)
       | (Except.ok rs, ops) =>
         (Except.ok (boundary symbol (execute_one_raw db model_id fee_rate
             (portfolio.positions.map Position.coin) market_state portfolio symbol
             fs.1 fs.2).1 :: rs),
          (execute_one_raw db model_id fee_rate (portfolio.positions.map Position.coin)
              market_state portfolio symbol fs.1 fs.2).2 ++ ops)) := by
  simp only [execute_decisions_raw, if_neg (not_not_intro hmem), hsig]

/-- Unfolding of the raw pass on a tracked decision whose signal
extraction raises: the pass aborts. -/
theorem execute_decisions_raw_cons_err (db : DbOp → Option String) (model_id : Int)
    (fee_rate : ℚ) (tracked : List String) (market_state : String → Option ℚ)
    (portfolio : Portfolio) (symbol : String) (decision : Json) (e : String)
    (rest : List (String × Json))
    (hmem : symbol ∈ tracked) (hsig : py_signal decision = Except.error e) :
    execute_decisions_raw db model_id fee_rate tracked market_state portfolio
        ((symbol, decision) :: rest) = (Except.error e, []) := by
  simp only [execute_decisions_raw, if_neg (not_not_intro hmem), hsig]

/-- C9 (amended): for decision values that are dicts with a string (or
absent) signal, the pass is isolating — an exception raised inside one
symbol's `try:` (e.g. a failing ledger call) becomes that symbol's error
result and execution continues, results compose across concatenation, and
there is one result per tracked decision; but the signal extraction at
source line 125 runs before the `try:`, so a decision value that is not a
dict, or whose present signal value is not a string, raises out of the
pass and aborts it. -/
theorem execute_isolation_amended (db : DbOp → Option String) (model_id : Int)
    (fee_rate : ℚ) (tracked : List String) (market_state : String → Option ℚ)
    (portfolio : Portfolio) :
    (∀ l1 l2 r1 o1 r2 o2,
       execute_decisions_raw db model_id fee_rate tracked market_state portfolio l1 =
         (Except.ok r1, o1) →
       execute_decisions_raw db model_id fee_rate tracked market_state portfolio l2 =
         (Except.ok r2, o2) →
       execute_decisions_raw db model_id fee_rate tracked market_state portfolio
           (l1 ++ l2) =
         (Except.ok (r1 ++ r2), o1 ++ o2)) ∧
    (∀ symbol decision fields signal e rest r o,
       symbol ∈ tracked →
       py_signal decision = Except.ok (fields, signal) →
       (execute_one_raw db model_id fee_rate (portfolio.positions.map Position.coin)
           market_state portfolio symbol fields signal).1 = Except.error e →
       execute_decisions_raw db model_id fee_rate tracked market_state portfolio rest =
         (Except.ok r, o) →
       execute_decisions_raw db model_id fee_rate tracked market_state portfolio
           ((symbol, decision) :: rest) =
         (Except.ok ({ coin := symbol, error := some e } :: r),
          (execute_one_raw db model_id fee_rate (portfolio.positions.map Position.coin)
              market_state portfolio symbol fields signal).2 ++ o)) ∧
    (∀ symbol decision e rest,
       symbol ∈ tracked →
       py_signal decision = Except.error e →
       execute_decisions_raw db model_id fee_rate tracked market_state portfolio
           ((symbol, decision) :: rest) = (Except.error e, [])) ∧
    (∀ decisions r o,
       execute_decisions_raw db model_id fee_rate tracked market_state portfolio
           decisions = (Except.ok r, o) →
       r.length = (decisions.filter (fun sd => sd.1 ∈ tracked)).length) := by
  refine ⟨?_, ?_, ?_, ?_⟩
  · intro l1
    induction l1 with
    | nil =>
      intro l2 r1 o1 r2 o2 h1 h2
      simp only [execute_decisions_raw, Prod.mk.injEq, Except.ok.injEq] at h1
      obtain ⟨h1a, h1b⟩ := h1
      subst h1a
      subst h1b
      simpa using h2
    | cons hd tl ih =>
      intro l2 r1 o1 r2 o2 h1 h2
      obtain ⟨symbol, decision⟩ := hd
      by_cases hmem : symbol ∉ tracked
      · simp only [execute_decisions_raw, if_pos hmem] at h1
        simp only [List.cons_append, execute_decisions_raw, if_pos hmem]
        exact ih l2 r1 o1 r2 o2 h1 h2
      · have hmem' : symbol ∈ tracked := not_not.mp hmem
        cases hsig : py_signal decision with
        | error e =>
          rw [execute_decisions_raw_cons_err db model_id fee_rate tracked market_state
            portfolio symbol decision e tl hmem' hsig] at h1
          simp at h1
        | ok fs =>
          rw [execute_decisions_raw_cons_ok db model_id fee_rate tracked market_state
            portfolio symbol decision fs tl hmem' hsig] at h1
          rw [show ((symbol, decision) :: tl) ++ l2 =
            (symbol, decision) :: (tl ++ l2) from rfl]
          rw [execute_decisions_raw_cons_ok db model_id fee_rate tracked market_state
            portfolio symbol decision fs (tl ++ l2) hmem' hsig]
          rcases hrt : execute_decisions_raw db model_id fee_rate tracked market_state
            portfolio tl with ⟨X, ops⟩
          rw [hrt] at h1
          cases X with
          | error e => simp at h1
          | ok rs =>
            simp only [Prod.mk.injEq, Except.ok.injEq] at h1
            obtain ⟨hr, ho⟩ := h1
            subst hr
            subst ho
            rw [ih l2 rs ops r2 o2 hrt h2]
            simp [List.append_assoc]
  · intro symbol decision fields signal e rest r o hmem hsig herr hrest
    rw [execute_decisions_raw_cons_ok db model_id fee_rate tracked market_state
      portfolio symbol decision (fields, signal) rest hmem hsig]
    simp only [hrest, herr, boundary]
  · intro symbol decision e rest hmem hsig
    exact execute_decisions_raw_cons_err db model_id fee_rate tracked market_state
      portfolio symbol decision e rest hmem hsig
  · intro decisions
    induction decisions with
    | nil =>
      intro r o h
      simp only [execute_decisions_raw, Prod.mk.injEq, Except.ok.injEq] at h
      obtain ⟨ha, hb⟩ := h
      subst ha
      simp
    | cons hd tl ih =>
      intro r o h
      obtain ⟨symbol, decision⟩ := hd
      by_cases hmem : symbol ∉ tracked
      · simp only [execute_decisions_raw, if_pos hmem] at h
        simp [hmem, ih r o h]
      · have hmem' : symbol ∈ tracked := not_not.mp hmem
        cases hsig : py_signal decision with
        | error e =>
          rw [execute_decisions_raw_cons_err db model_id fee_rate tracked market_state
            portfolio symbol decision e tl hmem' hsig] at h
          simp at h
        | ok fs =>
          rw [execute_decisions_raw_cons_ok db model_id fee_rate tracked market_state
            portfolio symbol decision fs tl hmem' hsig] at h
          rcases hrt : execute_decisions_raw db model_id fee_rate tracked market_state
            portfolio tl with ⟨X, ops⟩
          rw [hrt] at h
          cases X with
          | error e => simp at h
          | ok rs =>
            simp only [Prod.mk.injEq, Except.ok.injEq] at h
            obtain ⟨hr, ho⟩ := h
            subst hr
            simp [hmem', ih rs ops hrt]

/-- Witness for the amended C9: a failing ledger call inside the try is
isolated into that symbol's error result, while a non-string signal value
aborts the whole pass even with further decisions pending. -/
theorem execute_isolation_amended_witness :
    execute_decisions_raw dbFail 1 (1 / 1000) ["600519"] ms1000 pfCash
        [("600519", Json.obj fieldsBuy10)] =
      (Except.ok [{ coin := "600519", error := some "db down" }],
       (execute_one_raw dbFail 1 (1 / 1000) (pfCash.positions.map Position.coin)
           ms1000 pfCash "600519" fieldsBuy10 "buy_to_enter").2 ++ []) ∧
    execute_decisions_raw dbFail 1 (1 / 1000) ["600519", "000001"] ms1000 pfCash
        [("600519", Json.obj [("signal", Json.num 5)]),
         ("000001", Json.obj [("signal", Json.str "hold")])] =
      (Except.error "AttributeError: lower", []) := by
  constructor
  · apply (execute_isolation_amended dbFail 1 (1 / 1000) ["600519"] ms1000 pfCash).2.1
      "600519" (Json.obj fieldsBuy10) fieldsBuy10 "buy_to_enter" "db down" [] [] []
      (by decide) rfl ?_ rfl
    have hq : py_to_int ((fieldsBuy10.lookup "quantity").getD (Json.num 0)) =
        Except.ok 10 := rfl
    have hl : py_to_int ((fieldsBuy10.lookup "leverage").getD (Json.num 1)) =
        Except.ok 1 := rfl
    have hr : py_to_float ((fieldsBuy10.lookup "risk_budget_pct").getD (Json.num 3)) =
        Except.ok 3 := rfl
    simp only [execute_one_raw, if_true,
      execute_buy_raw_coerced dbFail 1 (1 / 1000) "600519" fieldsBuy10 ms1000 pfCash
        10 1 3 hq hl hr]
    simp only [execute_buy, ms1000, pfCash, dbFail, ex_sizing10]
    norm_num [max_positions]
  · exact (execute_isolation_amended dbFail 1 (1 / 1000) ["600519", "000001"] ms1000
      pfCash).2.2.1 "600519" (Json.obj [("signal", Json.num 5)])
      "AttributeError: lower" [("000001", Json.obj [("signal", Json.str "hold")])]
      (by decide) rfl

/-! ## C10 -/

/-- C10: signal dispatch lower-cases the signal (so `"BUY_TO_ENTER"` runs
the buy path), and any decision whose lower-cased signal is none of the four
known signals — including a missing signal, which matches as the empty
string — produces a per-symbol "Unknown signal" error result in the output
list rather than being skipped. -/
theorem signal_dispatch (db : DbOp → Option String) (model_id : Int) (fee_rate : ℚ)
    (market_state : String → Option ℚ) (portfolio : Portfolio) :
    (∀ symbol (decision : Decision),
       decision.signal = some "BUY_TO_ENTER" →
       execute_one db model_id fee_rate (portfolio.positions.map Position.coin)
           market_state portfolio symbol decision =
         execute_buy db model_id fee_rate symbol decision market_state portfolio) ∧
    (∀ tracked symbol (decision : Decision),
       symbol ∈ tracked →
       pyLower (decision.signal.getD "") ∉
         (["buy_to_enter", "sell_to_enter", "close_position", "hold"] : List String) →
       (execute_decisions db model_id fee_rate tracked market_state portfolio
           [(symbol, decision)]).1 =
         [{ coin := symbol,
            error := some ("Unknown signal: " ++ pyLower (decision.signal.getD "")) }]) ∧
    (∀ symbol (decision : Decision),
       decision.signal = none →
       (execute_one db model_id fee_rate (portfolio.positions.map Position.coin)
           market_state portfolio symbol decision).1 =
         Except.ok { coin := symbol, error := some "Unknown signal: " }) := by
  refine ⟨?_, ?_, ?_⟩
  · intro symbol decision hsig
    have hl : pyLower ((some "BUY_TO_ENTER").getD "") = "buy_to_enter" := by decide
    simp only [execute_one, hsig, hl, if_true]
  · intro tracked symbol decision hmem hnot
    simp only [List.mem_cons, List.not_mem_nil, or_false, not_or] at hnot
    obtain ⟨h1, h2, h3, h4⟩ := hnot
    simp only [execute_decisions]
    rw [if_neg (not_not_intro hmem)]
    simp only [execute_one]
    rw [if_neg h1, if_neg h2, if_neg h3, if_neg h4]
    simp [boundary, execute_decisions]
  · intro symbol decision hsig
    have hl : pyLower ((none : Option String).getD "") = "" := by decide
    simp only [execute_one, hsig, hl]
    rw [if_neg (by decide), if_neg (by decide), if_neg (by decide), if_neg (by decide)]
    have : ("Unknown signal: " ++ "" : String) = "Unknown signal: " := by decide
    simp [this]

/-- Witness for C10: the upper-case signal `"BUY_TO_ENTER"` is executed as a
buy. -/
theorem signal_dispatch_witness :
    execute_one dbOk 1 (1 / 1000) (pfCash.positions.map Position.coin) ms1000 pfCash
        "600519"
        { signal := some "BUY_TO_ENTER", quantity := 10, leverage := 1,
          risk_budget_pct := some 3 } =
      execute_buy dbOk 1 (1 / 1000) "600519"
        { signal := some "BUY_TO_ENTER", quantity := 10, leverage := 1,
          risk_budget_pct := some 3 } ms1000 pfCash :=
  (signal_dispatch dbOk 1 (1 / 1000) ms1000 pfCash).1 "600519" _ rfl

/-! ## C8 -/

/-- Bounds for the RSI formula given non-negative average gain and loss. -/
theorem rsi_formula_bounds (g l : ℚ) (hg : 0 ≤ g) (hl : 0 ≤ l) :
    0 ≤ (if l = 0 then (100 : ℚ) else 100 - 100 / (1 + g / l)) ∧
      (if l = 0 then (100 : ℚ) else 100 - 100 / (1 + g / l)) ≤ 100 := by
  split
  · norm_num
  · rename_i hne
    have hlpos : 0 < l := lt_of_le_of_ne hl (Ne.symm hne)
    have hrs : 0 ≤ g / l := div_nonneg hg hlpos.le
    have hd1 : 0 < 100 / (1 + g / l) := div_pos (by norm_num) (by linarith)
    have hd2 : 100 / (1 + g / l) ≤ 100 := div_le_self (by norm_num) (by linarith)
    constructor
    · linarith
    · linarith

/-- On a strictly increasing history every price-to-price delta is positive. -/
theorem chain_deltas_pos (l : List ℚ) (hch : List.Chain' (· < ·) l) :
    ∀ c ∈ List.zipWith (fun a b => b - a) l l.tail, 0 < c := by
  induction l with
  | nil => intro c hc; simp at hc
  | cons a t ih =>
    intro c hc
    cases t with
    | nil => simp at hc
    | cons b t2 =>
      rw [List.chain'_cons] at hch
      simp only [List.tail_cons, List.zipWith_cons_cons, List.mem_cons] at hc
      rcases hc with rfl | hc
      · exact sub_pos.mpr hch.1
      · exact ih hch.2 c (by simpa using hc)

/-- The sum of the trailing slice of the gains (resp. losses) list is
non-negative. -/
theorem trailing_sum_nonneg (f : ℚ → ℚ) (hf : ∀ c, 0 ≤ f c)
    (changes : List ℚ) (n : Nat) :
    0 ≤ (last_slice n (changes.map f)).sum := by
  apply List.sum_nonneg
  intro x hx
  rw [last_slice] at hx
  have hx' := List.mem_of_mem_drop hx
  obtain ⟨c, -, rfl⟩ := List.mem_map.mp hx'
  exact hf c

/-- C8: with at least 14 prices the indicator snapshot exists and its RSI14
— averages of the last 14 gains and loss magnitudes, 100 on zero average
loss, `100 − 100/(1 + avgGain/avgLoss)` otherwise — always lies in [0, 100];
an all-gains history yields RSI = 100; fewer than 14 prices yield no
snapshot. -/
theorem rsi_spec :
    (∀ prices : List ℚ, prices.length < 14 →
       calculate_technical_indicators prices = none) ∧
    (∀ prices : List ℚ, 14 ≤ prices.length →
       ∃ ind, calculate_technical_indicators prices = some ind ∧
         0 ≤ ind.rsi_14 ∧ ind.rsi_14 ≤ 100) ∧
    (∀ (prices : List ℚ) ind, List.Chain' (· < ·) prices →
       calculate_technical_indicators prices = some ind → ind.rsi_14 = 100) := by
  refine ⟨?_, ?_, ?_⟩
  · intro prices h
    rw [calculate_technical_indicators, if_pos h]
  · intro prices h14
    simp only [calculate_technical_indicators]
    rw [if_neg (not_lt.mpr h14)]
    refine ⟨_, rfl, ?_⟩
    have hg : 0 ≤ (last_slice 14 ((List.zipWith (fun a b => b - a) prices
        prices.tail).map (fun change => if 0 < change then change else 0))).sum := by
      apply trailing_sum_nonneg
      intro c
      split
      · linarith [lt_of_lt_of_le (by assumption : (0:ℚ) < c) (le_refl c)]
      · exact le_refl 0
    have hl : 0 ≤ (last_slice 14 ((List.zipWith (fun a b => b - a) prices
        prices.tail).map (fun change => if change < 0 then -change else 0))).sum := by
      apply trailing_sum_nonneg
      intro c
      split
      · linarith [neg_pos.mpr (by assumption : c < (0:ℚ))]
      · exact le_refl 0
    exact rsi_formula_bounds _ _ (by positivity) (by positivity)
  · intro prices ind hch heq
    by_cases hn : prices.length < 14
    · rw [calculate_technical_indicators, if_pos hn] at heq
      exact absurd heq (by simp)
    · have hzero : (last_slice 14 ((List.zipWith (fun a b => b - a) prices
          prices.tail).map (fun change => if change < 0 then -change else 0))).sum = 0 := by
        apply List.sum_eq_zero
        intro x hx
        rw [last_slice] at hx
        have hx' := List.mem_of_mem_drop hx
        obtain ⟨c, hc, rfl⟩ := List.mem_map.mp hx'
        have hcpos := chain_deltas_pos prices hch c hc
        rw [if_neg (by linarith)]
      simp only [calculate_technical_indicators] at heq
      rw [if_neg hn] at heq
      injection heq with heq
      subst heq
      simp only []
      rw [hzero]
      norm_num

/-- Witness for C8: a 14-point history has an RSI snapshot within bounds,
and a 3-point history yields no snapshot. -/
theorem rsi_spec_witness :
    (∃ ind, calculate_technical_indicators
        ([1, 2, 3, 4, 5, 6, 7, 8, 9, 10, 11, 12, 13, 14] : List ℚ) = some ind ∧
        0 ≤ ind.rsi_14 ∧ ind.rsi_14 ≤ 100) ∧
      calculate_technical_indicators ([1, 2, 3] : List ℚ) = none :=
  ⟨rsi_spec.2.1 [1, 2, 3, 4, 5, 6, 7, 8, 9, 10, 11, 12, 13, 14] (by decide),
   rsi_spec.1 [1, 2, 3] (by decide)⟩

/-! ## C6 -/

/-- C6 (bug evidence): market closed, no stored closing price, live
fallback fetch parses to nothing, and an earlier live snapshot exists —
`get_prices` serves the snapshot quote but tagged `source = 'live'`: the
snapshot payloads were recorded after the tagging loop mutated them, so the
`'previous_live'` default of `payload.get('source', 'previous_live')` can
never apply. -/
theorem previous_live_tag_bug :
    (get_prices cfgMoutai [] (some []) false "2026-10-10" (some ["600519"])
        snapMoutai).1 =
      [("600519", { price := 1700, name := "贵州茅台", exchange := "XSHG",
                    change_24h := some 0, source := some "live",
                    price_date := some "2026-10-09" })] := by
  rfl

/-! ## C7 -/

/-- C7 counterexample: while the market is open and the upstream fetch
raises, `get_prices` returns the degraded price-0 entry tagged
`source = 'live'` and dated — not "no freshness tag": the truthy degraded
dict flows through the live tagging loop. -/
theorem quote_degraded_counterexample :
    (get_prices cfgMoutai [] none true "2026-10-10" (some ["600519"])
        { last_market_open_state := false, last_live_prices := [],
          last_live_date := none }).1 =
      [("600519", { price := 0, name := "贵州茅台", exchange := "XSHG",
                    change_24h := none, source := some "live",
                    price_date := some "2026-10-10" })] := by
  rfl

/-- C7 amended: while the market is open with a failing upstream fetch,
`get_prices` returns, per requested configured symbol, a degraded entry with
`price = 0` and the raw name and exchange, but tagged `source = 'live'` and
stamped with today's date — callers can distinguish it from a real quote
only by the zero price. -/
theorem quote_degraded_amended (cfg : List Stock) (stored_db : List (String × Stored))
    (today : String) (syms : List String) (st : FetchState)
    (hcfg : cfg ≠ []) (hsyms : syms ≠ [])
    (hne : cfg.filter (fun s => s.symbol ∈ syms) ≠ []) :
    (get_prices cfg stored_db none true today (some syms) st).1 =
      (cfg.filter (fun s => s.symbol ∈ syms)).map (fun s =>
        (s.symbol, { price := 0, name := s.name, exchange := s.exchange,
                     change_24h := none, source := some "live",
                     price_date := some today })) := by
  have hlive : get_current_prices cfg none (some syms) =
      (cfg.filter (fun s => s.symbol ∈ syms)).map (fun s =>
        (s.symbol, ({ price := 0, name := s.name, exchange := s.exchange } : Payload))) := by
    rw [get_current_prices, if_neg hcfg]
    simp only [if_neg hsyms]
    rw [if_neg hne]
  unfold get_prices
  simp only [hlive]
  simp only [if_true]
  rw [if_pos (by simpa using hne)]
  simp only [set_live_tags, List.map_map]
  rfl

/-- Witness for the amended C7 at one configured symbol. -/
theorem quote_degraded_amended_witness :
    (get_prices cfgMoutai [] none true "2026-10-10" (some ["600519"])
        { last_market_open_state := false, last_live_prices := [],
          last_live_date := none }).1 =
      (cfgMoutai.filter (fun s => s.symbol ∈ (["600519"] : List String))).map (fun s =>
        (s.symbol, { price := 0, name := s.name, exchange := s.exchange,
                     change_24h := none, source := some "live",
                     price_date := some "2026-10-10" })) :=
  quote_degraded_amended cfgMoutai [] "2026-10-10" ["600519"]
    { last_market_open_state := false, last_live_prices := [], last_live_date := none }
    (by decide) (by decide) (by decide)

/-! ## C5: split/strip lemmas -/

/-- `splitFirst` over a prepended backtick-free prefix: the separator (which
starts with a backtick) cannot start inside or straddle the prefix. -/
theorem splitFirst_append (s' pre z : List Char) (hpre : ∀ c ∈ pre, c ≠ '`') :
    splitFirst ('`' :: s') (pre ++ z) =
      (splitFirst ('`' :: s') z).map (fun ab => (pre ++ ab.1, ab.2)) := by
  induction pre with
  | nil =>
    simp only [List.nil_append]
    cases splitFirst ('`' :: s') z with
    | none => simp
    | some ab => simp
  | cons c pre ih =>
    have hc : c ≠ '`' := hpre c (List.mem_cons_self c pre)
    simp only [List.cons_append, splitFirst]
    have hpf : ('`' :: s').isPrefixOf (c :: (pre ++ z)) = false := by
      show (('`' == c) && s'.isPrefixOf (pre ++ z)) = false
      have hcc : ('`' == c) = false := by
        simp only [beq_eq_false_iff_ne, ne_eq]
        exact fun h => hc h.symm
      simp [hcc]
    rw [if_neg (by simp [hpf])]
    simp only [List.append_eq]
    rw [ih (fun d hd => hpre d (List.mem_cons_of_mem c hd))]
    cases splitFirst ('`' :: s') z with
    | none => simp
    | some ab => simp

/-- `splitFirst` finds a separator sitting at the front. -/
theorem splitFirst_self (sep rest : List Char) (hsep : sep ≠ []) :
    splitFirst sep (sep ++ rest) = some ([], rest) := by
  cases sep with
  | nil => exact absurd rfl hsep
  | cons s0 s' =>
    simp only [List.cons_append, splitFirst]
    rw [if_pos]
    · simp only [List.length_cons, List.drop_succ_cons, Option.some.injEq, Prod.mk.injEq,
        true_and]
      exact List.drop_left s' rest
    · rw [List.isPrefixOf_iff_prefix]
      exact List.prefix_append (s0 :: s') rest

/-- A backtick-headed separator does not occur in backtick-free text. -/
theorem splitFirst_none (s' l : List Char) (hl : ∀ c ∈ l, c ≠ '`') :
    splitFirst ('`' :: s') l = none := by
  have h := splitFirst_append s' l [] hl
  rw [List.append_nil] at h
  rw [h]
  rfl

/-- `pyTakeUntil` passes a backtick-free prefix through. -/
theorem pyTakeUntil_append (s' pre z : List Char) (hpre : ∀ c ∈ pre, c ≠ '`') :
    pyTakeUntil ('`' :: s') (pre ++ z) = pre ++ pyTakeUntil ('`' :: s') z := by
  rw [pyTakeUntil, pyTakeUntil, splitFirst_append s' pre z hpre]
  cases splitFirst ('`' :: s') z with
  | none => simp
  | some ab => simp

/-- `s.split('```json')[1]` applied after a bare fence: the segment either
vanishes (the tail starts with `json`, completing a json fence) or retains
the full fence marker, provided the tail does not itself start with a
backtick. -/
theorem pyTakeUntil_fj_fence (post : List Char)
    (hpost : ∀ c, post.head? = some c → c ≠ '`') :
    pyTakeUntil fenceJson (fence3 ++ post) = [] ∨
      ∃ t, pyTakeUntil fenceJson (fence3 ++ post) = fence3 ++ t := by
  have h3 : fenceJson.isPrefixOf ('`' :: post) = false := by
    cases post with
    | nil => rfl
    | cons c cs =>
      have hc : c ≠ '`' := hpost c rfl
      show (('`' == '`') && (('`' == c) && _)) = false
      have hcc : ('`' == c) = false := by
        simp only [beq_eq_false_iff_ne, ne_eq]
        exact fun h => hc h.symm
      rw [hcc]
      simp
  have h2 : fenceJson.isPrefixOf ('`' :: '`' :: post) = false := by
    cases post with
    | nil => rfl
    | cons c cs =>
      have hc : c ≠ '`' := hpost c rfl
      show (('`' == '`') && (('`' == '`') && (('`' == c) && _))) = false
      have hcc : ('`' == c) = false := by
        simp only [beq_eq_false_iff_ne, ne_eq]
        exact fun h => hc h.symm
      rw [hcc]
      simp
  by_cases h1 : fenceJson.isPrefixOf ('`' :: '`' :: '`' :: post) = true
  · left
    show pyTakeUntil fenceJson ('`' :: '`' :: '`' :: post) = []
    rw [pyTakeUntil]
    simp only [splitFirst, h1, h2, h3, Bool.false_eq_true, if_false, if_true]
  · right
    have h1' : fenceJson.isPrefixOf ('`' :: '`' :: '`' :: post) = false := by
      cases hb : fenceJson.isPrefixOf ('`' :: '`' :: '`' :: post) with
      | false => rfl
      | true => exact absurd hb h1
    show ∃ t, pyTakeUntil fenceJson ('`' :: '`' :: '`' :: post) = fence3 ++ t
    rw [pyTakeUntil]
    cases hsp : splitFirst fenceJson post with
    | none =>
      simp only [splitFirst, h1', h2, h3, hsp, Bool.false_eq_true, if_false]
      exact ⟨post, rfl⟩
    | some ab =>
      obtain ⟨a, b⟩ := ab
      simp only [splitFirst, h1', h2, h3, hsp, Bool.false_eq_true, if_false]
      exact ⟨a, rfl⟩

/-- Specializations of the split lemmas to the two fence markers. -/
theorem splitFirst_fj_append (pre z : List Char) (hpre : ∀ c ∈ pre, c ≠ '`') :
    splitFirst fenceJson (pre ++ z) =
      (splitFirst fenceJson z).map (fun ab => (pre ++ ab.1, ab.2)) :=
  splitFirst_append ['`', '`', 'j', 's', 'o', 'n'] pre z hpre

theorem splitFirst_f3_append (pre z : List Char) (hpre : ∀ c ∈ pre, c ≠ '`') :
    splitFirst fence3 (pre ++ z) =
      (splitFirst fence3 z).map (fun ab => (pre ++ ab.1, ab.2)) :=
  splitFirst_append ['`', '`'] pre z hpre

theorem pyTakeUntil_fj_append (pre z : List Char) (hpre : ∀ c ∈ pre, c ≠ '`') :
    pyTakeUntil fenceJson (pre ++ z) = pre ++ pyTakeUntil fenceJson z :=
  pyTakeUntil_append ['`', '`', 'j', 's', 'o', 'n'] pre z hpre

theorem pyTakeUntil_f3_append (pre z : List Char) (hpre : ∀ c ∈ pre, c ≠ '`') :
    pyTakeUntil fence3 (pre ++ z) = pre ++ pyTakeUntil fence3 z :=
  pyTakeUntil_append ['`', '`'] pre z hpre

theorem splitFirst_fj_none (l : List Char) (hl : ∀ c ∈ l, c ≠ '`') :
    splitFirst fenceJson l = none :=
  splitFirst_none ['`', '`', 'j', 's', 'o', 'n'] l hl

theorem splitFirst_f3_none (l : List Char) (hl : ∀ c ∈ l, c ≠ '`') :
    splitFirst fence3 l = none :=
  splitFirst_none ['`', '`'] l hl

/-- The fenced-block extraction of `_parse_response` recovers exactly the
payload placed between a `'```json'` marker and its closing fence, for
backtick-free prose and payload. -/
theorem extract_payload_fenced (pre payload post : List Char)
    (hpre : ∀ c ∈ pre, c ≠ '`') (hpay : ∀ c ∈ payload, c ≠ '`')
    (hpost : ∀ c, post.head? = some c → c ≠ '`') :
    extract_payload (pre ++ (fenceJson ++ (payload ++ (fence3 ++ post)))) = payload := by
  have hs1 : splitFirst fenceJson (pre ++ (fenceJson ++ (payload ++ (fence3 ++ post)))) =
      some (pre, payload ++ (fence3 ++ post)) := by
    rw [splitFirst_fj_append pre _ hpre,
      splitFirst_self fenceJson (payload ++ (fence3 ++ post)) (by decide)]
    simp
  rw [extract_payload, hs1]
  show pyTakeUntil fence3 (pyTakeUntil fenceJson (payload ++ (fence3 ++ post))) = payload
  rw [pyTakeUntil_fj_append payload _ hpay]
  rcases pyTakeUntil_fj_fence post hpost with h | ⟨t, h⟩
  · rw [h, List.append_nil, pyTakeUntil, splitFirst_f3_none payload hpay]
  · rw [h, pyTakeUntil_f3_append payload _ hpay]
    have ht : pyTakeUntil fence3 (fence3 ++ t) = [] := by
      rw [pyTakeUntil, splitFirst_self fence3 t (by decide)]
    rw [ht, List.append_nil]

/-- `dropWhile` passes over an appended tail whose head fails the predicate. -/
theorem dropWhile_append_head (p : Char → Bool) (a b : List Char)
    (hb : ∀ c, b.head? = some c → p c = false) :
    List.dropWhile p (a ++ b) = List.dropWhile p a ++ b := by
  induction a with
  | nil =>
    cases b with
    | nil => simp
    | cons c cs => simp [List.dropWhile_cons, hb c rfl]
  | cons d a ih =>
    simp only [List.cons_append, List.dropWhile_cons]
    cases hpd : p d with
    | true => simp [ih]
    | false => simp

/-- The head of a `dropWhile` result fails the predicate. -/
theorem dropWhile_head_false (p : Char → Bool) (l : List Char) :
    ∀ c, (List.dropWhile p l).head? = some c → p c = false := by
  induction l with
  | nil => intro c h; simp at h
  | cons d t ih =>
    intro c h
    rw [List.dropWhile_cons] at h
    split at h
    · exact ih c h
    · rename_i hpd
      simp only [List.head?_cons, Option.some.injEq] at h
      subst h
      simpa using hpd

/-- `dropWhile` is the identity when the head already fails the predicate. -/
theorem dropWhile_eq_self (p : Char → Bool) (l : List Char)
    (h : ∀ c, l.head? = some c → p c = false) : List.dropWhile p l = l := by
  cases l with
  | nil => rfl
  | cons c cs => simp [List.dropWhile_cons, h c rfl]

/-- Python `strip()` is idempotent. -/
theorem pyStrip_idem (l : List Char) : pyStrip (pyStrip l) = pyStrip l := by
  show pyStrip (((l.dropWhile Char.isWhitespace).reverse.dropWhile
    Char.isWhitespace).reverse) = _
  by_cases hB : (l.dropWhile Char.isWhitespace).reverse.dropWhile Char.isWhitespace = []
  · rw [hB]
    conv_rhs => rw [pyStrip]
    rw [hB]
    rfl
  · have hBhead : ∀ c,
        ((l.dropWhile Char.isWhitespace).reverse.dropWhile Char.isWhitespace).head? =
          some c → Char.isWhitespace c = false :=
      dropWhile_head_false Char.isWhitespace (l.dropWhile Char.isWhitespace).reverse
    have hBrev : ∀ c,
        ((l.dropWhile Char.isWhitespace).reverse.dropWhile
          Char.isWhitespace).reverse.head? = some c → Char.isWhitespace c = false := by
      intro c hc
      rw [List.head?_reverse] at hc
      have hsuf : ((l.dropWhile Char.isWhitespace).reverse.dropWhile Char.isWhitespace).IsSuffix
          (l.dropWhile Char.isWhitespace).reverse :=
        List.dropWhile_suffix Char.isWhitespace
      obtain ⟨s, hs⟩ := hsuf
      have h1 : (s ++ (l.dropWhile Char.isWhitespace).reverse.dropWhile
          Char.isWhitespace).getLast? =
          ((l.dropWhile Char.isWhitespace).reverse.dropWhile Char.isWhitespace).getLast? :=
        List.getLast?_append_of_ne_nil _ hB
      have h2 : (l.dropWhile Char.isWhitespace).reverse.getLast? = some c := by
        rw [← hs, h1, hc]
      rw [List.getLast?_reverse] at h2
      exact dropWhile_head_false Char.isWhitespace l c h2
    rw [pyStrip]
    rw [dropWhile_eq_self _ _ hBrev]
    rw [List.reverse_reverse]
    rw [dropWhile_eq_self _ _ hBhead]
    rfl

/-- Python `strip()` of prose-wrapped text whose core starts and ends with a
non-whitespace character only trims the prose ends. -/
theorem pyStrip_sandwich (pre m post : List Char)
    (hh : ∀ c, m.head? = some c → Char.isWhitespace c = false)
    (hl : ∀ c, m.getLast? = some c → Char.isWhitespace c = false)
    (hm : m ≠ []) :
    pyStrip (pre ++ (m ++ post)) =
      pre.dropWhile Char.isWhitespace ++
        (m ++ (post.reverse.dropWhile Char.isWhitespace).reverse) := by
  rw [pyStrip]
  have h1 : ∀ c, (m ++ post).head? = some c → Char.isWhitespace c = false := by
    intro c hc
    rw [List.head?_append_of_ne_nil m hm] at hc
    exact hh c hc
  rw [dropWhile_append_head _ pre _ h1]
  rw [show (pre.dropWhile Char.isWhitespace ++ (m ++ post)).reverse =
      post.reverse ++ (m.reverse ++ (pre.dropWhile Char.isWhitespace).reverse) from by
    simp [List.reverse_append]]
  have h2 : ∀ c,
      (m.reverse ++ (pre.dropWhile Char.isWhitespace).reverse).head? = some c →
        Char.isWhitespace c = false := by
    intro c hc
    rw [List.head?_append_of_ne_nil m.reverse (by simpa using hm)] at hc
    rw [List.head?_reverse] at hc
    exact hl c hc
  rw [dropWhile_append_head _ post.reverse _ h2]
  rw [show (post.reverse.dropWhile Char.isWhitespace ++
      (m.reverse ++ (pre.dropWhile Char.isWhitespace).reverse)).reverse =
      pre.dropWhile Char.isWhitespace ++
        (m ++ (post.reverse.dropWhile Char.isWhitespace).reverse) from by
    simp [List.reverse_append]]

/-- Characters surviving `strip()` come from the original text. -/
theorem pyStrip_subset (l : List Char) : ∀ c ∈ pyStrip l, c ∈ l := by
  intro c hc
  rw [pyStrip, List.mem_reverse] at hc
  have hc2 : c ∈ (l.dropWhile Char.isWhitespace).reverse :=
    (List.dropWhile_sublist Char.isWhitespace).subset hc
  rw [List.mem_reverse] at hc2
  exact (List.dropWhile_sublist Char.isWhitespace).subset hc2

/-- C5: the response parser is total; a reply wrapping a payload in a
`'```json'` fenced block between backtick-free prose yields exactly the
parse of the bare payload, and a reply whose extracted content does not
parse to an object yields an empty decision map and no reasoning trace. -/
theorem parse_response_spec (loads : List Char → Option Json) (dumps : Json → String) :
    (∀ pre payload post : List Char,
       (∀ c ∈ pre, c ≠ '`') → (∀ c ∈ payload, c ≠ '`') →
       (∀ c, post.head? = some c → c ≠ '`') →
       parse_response loads dumps
           (pre ++ (fenceJson ++ (payload ++ (fence3 ++ post)))) =
         parse_response loads dumps payload) ∧
    (∀ response : List Char,
       (∀ j, loads (pyStrip (extract_payload (pyStrip response))) = some j →
         j.isObj = false) →
       parse_response loads dumps response = ([], none)) := by
  constructor
  · intro pre payload post hpre hpay hpost
    have hm : (fenceJson ++ (payload ++ fence3)) ≠ [] := by simp [fenceJson]
    have hh : ∀ c, (fenceJson ++ (payload ++ fence3)).head? = some c →
        Char.isWhitespace c = false := by
      intro c hc
      rw [show (fenceJson ++ (payload ++ fence3)).head? = some '`' from rfl] at hc
      simp only [Option.some.injEq] at hc
      subst hc
      decide
    have hlast : ∀ c, (fenceJson ++ (payload ++ fence3)).getLast? = some c →
        Char.isWhitespace c = false := by
      intro c hc
      rw [List.getLast?_append_of_ne_nil _
        ((by simp [fence3]) : payload ++ fence3 ≠ [])] at hc
      rw [List.getLast?_append_of_ne_nil _ ((by simp [fence3]) : fence3 ≠ [])] at hc
      rw [show fence3.getLast? = some '`' from rfl] at hc
      simp only [Option.some.injEq] at hc
      subst hc
      decide
    have hstrip : pyStrip (pre ++ (fenceJson ++ (payload ++ (fence3 ++ post)))) =
        pre.dropWhile Char.isWhitespace ++
          (fenceJson ++ (payload ++ (fence3 ++
            (post.reverse.dropWhile Char.isWhitespace).reverse))) := by
      rw [show pre ++ (fenceJson ++ (payload ++ (fence3 ++ post))) =
          pre ++ ((fenceJson ++ (payload ++ fence3)) ++ post) from by
        simp [List.append_assoc]]
      rw [pyStrip_sandwich pre _ post hh hlast hm]
      simp [List.append_assoc]
    have hpre' : ∀ c ∈ pre.dropWhile Char.isWhitespace, c ≠ '`' := fun c hc =>
      hpre c ((List.dropWhile_sublist Char.isWhitespace).subset hc)
    have hpost' : ∀ c,
        ((post.reverse.dropWhile Char.isWhitespace).reverse).head? = some c →
          c ≠ '`' := by
      intro c hc
      rw [List.head?_reverse] at hc
      have hne : post.reverse.dropWhile Char.isWhitespace ≠ [] := by
        intro h0
        rw [h0] at hc
        simp at hc
      have hsuf : (post.reverse.dropWhile Char.isWhitespace).IsSuffix post.reverse :=
        List.dropWhile_suffix Char.isWhitespace
      obtain ⟨s, hs⟩ := hsuf
      have h1 : post.reverse.getLast? = some c := by
        rw [← hs, List.getLast?_append_of_ne_nil _ hne, hc]
      rw [List.getLast?_reverse] at h1
      exact hpost c h1
    have hex : extract_payload
        (pyStrip (pre ++ (fenceJson ++ (payload ++ (fence3 ++ post))))) = payload := by
      rw [hstrip]
      exact extract_payload_fenced _ payload _ hpre' hpay hpost'
    have hbt : ∀ c ∈ pyStrip payload, c ≠ '`' := fun c hc =>
      hpay c (pyStrip_subset payload c hc)
    have hexR : extract_payload (pyStrip payload) = pyStrip payload := by
      rw [extract_payload, splitFirst_fj_none _ hbt, splitFirst_f3_none _ hbt]
    simp only [parse_response, hex, hexR, pyStrip_idem]
  · intro response hno
    simp only [parse_response]
    cases hload : loads (pyStrip (extract_payload (pyStrip response))) with
    | none => simp [hload, stringify_cot_trace]
    | some j =>
      cases j with
      | obj fields => exact absurd (hno _ hload) (by simp [Json.isObj])
      | null => simp [hload, stringify_cot_trace]
      | bool b => simp [hload, stringify_cot_trace]
      | num q => simp [hload, stringify_cot_trace]
      | str s => simp [hload, stringify_cot_trace]
      | arr elems => simp [hload, stringify_cot_trace]

/-- Witness for C5: a fenced reply with surrounding prose parses like the
bare payload, and an unparsable reply yields no decisions and no trace. -/
theorem parse_response_spec_witness :
    parse_response loadsNone dumpsEmpty
        ("Here is my plan:\n".data ++ (fenceJson ++ (" 42 ".data ++
          (fence3 ++ "\nthanks".data)))) =
      parse_response loadsNone dumpsEmpty " 42 ".data ∧
    parse_response loadsNone dumpsEmpty "not a structured reply".data = ([], none) :=
  ⟨(parse_response_spec loadsNone dumpsEmpty).1 "Here is my plan:\n".data " 42 ".data
      "\nthanks".data (by decide) (by decide)
      (by
        intro c hc
        simp at hc
        subst hc
        decide),
   (parse_response_spec loadsNone dumpsEmpty).2 "not a structured reply".data
      (by
        intro j hj
        simp [loadsNone] at hj)⟩
